import Mathlib

/-
Verification development for miflora/miflora_poller.py.

The Python module is shallowly embedded as follows:
* byte strings returned by device reads are `List Nat` (each entry one byte);
* Python `None`-or-bytes values are `Option (List Nat)`;
* Python strings produced by `chr` joins are represented as their lists of
  code points (`List Nat`), since the source decodes bytes by a direct
  byte-to-codepoint mapping;
* timestamps (`datetime.now()`) and durations (`timedelta`) are `Int`
  seconds; datetime arithmetic and comparison translate to `Int` arithmetic.
  All `datetime.now()` calls made during a single public operation are
  modelled as the same instant `now`, which is passed in as a parameter;
* Python exceptions are modelled with `Except PyError`; for the stateful
  methods the state reached at the raise point is returned alongside the
  error, mirroring mutation of `self` before the exception propagates;
* every device read performed through the retrying primitives is modelled
  as an environment-supplied `Option (List Nat)` input (`none` = the
  primitive reported failure, `some bs` = it returned the bytes `bs`);
  the retry loop itself is modelled separately (`read_ble_run` below).
-/

/-- Python exception kinds that the embedded code can raise. -/
inductive PyError where
  | indexError
  | typeError
  | valueError
  | ioError : String → PyError
deriving DecidableEq, Repr

/-- Python `chr`: succeeds on code points below 0x110000, raises
`ValueError` otherwise. Characters are represented by their code points. -/
def pyChr (n : Nat) : Except PyError Nat :=
  if n < 1114112 then .ok n else .error .valueError

/-- Python `''.join(chr(n) for n in bs)`: maps `chr` over the bytes left to
right, raising at the first invalid code point. The resulting string is
represented as its list of code points. -/
def pyChrJoin : List Nat → Except PyError (List Nat)
  | [] => .ok []
  | n :: rest =>
    if n < 1114112 then
      match pyChrJoin rest with
      | .ok l => .ok (n :: l)
      | .error e => .error e
    else .error .valueError

/-- Python lexicographic string comparison `s < t` on code-point lists. -/
def pyStrLt : List Nat → List Nat → Bool
  | [], [] => false
  | [], _ :: _ => true
  | _ :: _, [] => false
  | a :: s, b :: t =>
    if a < b then true
    else if b < a then false
    else pyStrLt s t

/-- Python `s >= t` for strings: the negation of `s < t` (total order). -/
def pyStrGe (s t : List Nat) : Bool := !(pyStrLt s t)

/-- Code points of the firmware version string "2.6.6"
('2' = 50, '.' = 46, '6' = 54). -/
def ver266 : List Nat := [50, 46, 54, 46, 54]

/-- Code points of the firmware version string "2.6.5" ('5' = 53). -/
def ver265 : List Nat := [50, 46, 54, 46, 53]

/-
Retry primitives (`read_ble` / `write_read_ble`).

The source loop is

    attempt = 0
    while attempt <= retries:
        while True:
            try:
                ... one connect / operate / disconnect session ...
                return data
            except:
                attempt += 1
                pass
    return None

`env i` is the outcome of session attempt number `i` (`none` = the attempt
raised, `some bs` = it returned `bs`). Inside the inner `while True` loop
every past attempt has failed, so the `attempt` counter equals the index of
the next session attempt. The loop state is evaluated with explicit fuel
(one unit per inner-loop iteration): `LoopRes.running a` means the loop has
not returned after making `a` attempts, `LoopRes.returned r a` means it
returned `r` after `a` attempts.
-/

/-- Result of running a retry loop for a bounded number of iterations. -/
inductive LoopRes where
  | returned : Option (List Nat) → Nat → LoopRes
  | running : Nat → LoopRes
deriving DecidableEq, Repr

/-- The inner `while True` loop of `read_ble`: one session attempt per
iteration; returns on the first success; on exception increments `attempt`
and iterates again, never re-checking the outer bound. -/
def read_ble_inner (env : Nat → Option (List Nat)) : Nat → Nat → LoopRes
  | attempt, 0 => .running attempt
  | attempt, fuel + 1 =>
    match env attempt with
    | some d => .returned (some d) (attempt + 1)
    | none => read_ble_inner env (attempt + 1) fuel

/-- `read_ble(mac, handle, retries, timeout)`: `attempt = 0` satisfies the
outer guard `attempt <= retries` for every natural `retries`, and the inner
loop is left only by `return`, so the trailing `return None` is reached
only if the guard fails at entry — never for `retries ≥ 0`. -/
def read_ble_run (env : Nat → Option (List Nat)) (retries fuel : Nat) : LoopRes :=
  if 0 ≤ retries then read_ble_inner env 0 fuel else .returned none 0

/-- The inner `while True` loop of `write_read_ble`: identical loop
structure; the session body writes `[0xa0, 0x1f]` to handle 0x0033 and
then reads handle 0x0035, with `env` giving each attempt's outcome. -/
def write_read_ble_inner (env : Nat → Option (List Nat)) : Nat → Nat → LoopRes
  | attempt, 0 => .running attempt
  | attempt, fuel + 1 =>
    match env attempt with
    | some d => .returned (some d) (attempt + 1)
    | none => write_read_ble_inner env (attempt + 1) fuel

/-- `write_read_ble(mac, retries, timeout)`: same outer structure as
`read_ble_run`. -/
def write_read_ble_run (env : Nat → Option (List Nat)) (retries fuel : Nat) : LoopRes :=
  if 0 ≤ retries then write_read_ble_inner env 0 fuel else .returned none 0

/-- State of one `MiFloraPoller` object: the constructor arguments `mac`,
`cache_timeout` (seconds) and `retries`, together with the mutable fields
`_cache`, `_last_read`, `_fw_last_read`, `battery` and `_firmware_version`.
The source never assigns `self.battery` in `__init__`; it is first
assigned inside `firmware_version`, and no public operation reads it
earlier, so initialising it to 0 here is observationally faithful. -/
structure MiFloraPoller where
  mac : String
  cache : Option (List Nat)
  cacheTimeout : Int
  lastRead : Option Int
  fwLastRead : Int
  retries : Int
  battery : Nat
  firmwareVersion : Option (List Nat)
deriving DecidableEq, Repr

namespace MiFloraPoller

/-- `__init__(mac, adapter, cache_timeout=600, retries=3)`: empty cache, no
last read, `_fw_last_read = datetime.now()`, no firmware version. -/
def init (mac : String) (cache_timeout retries now : Int) : MiFloraPoller :=
  { mac := mac
    cache := none
    cacheTimeout := cache_timeout
    lastRead := none
    fwLastRead := now
    retries := retries
    battery := 0
    firmwareVersion := none }

/-- `name()`: one retried read of handle 0x0003, then
`''.join(chr(n) for n in name)`. When the read result is `None`, iterating
it raises `TypeError`; the state is untouched either way. -/
def name (readResult : Option (List Nat)) : Except PyError (List Nat) :=
  match readResult with
  | none => .error .typeError
  | some d => pyChrJoin d

/-- The refresh condition of `firmware_version`:
`(self._firmware_version is None) or
 (datetime.now() - timedelta(hours=24) > self._fw_last_read)`. -/
def firmware_refresh_needed (now : Int) (s : MiFloraPoller) : Bool :=
  s.firmwareVersion.isNone || decide (now - 86400 > s.fwLastRead)

/-- `firmware_version()`: if the refresh condition holds, set
`_fw_last_read = now` and read handle 0x0038 (`devRead` is the retried
read's outcome). On `None`, battery becomes 0 and the version `None`;
otherwise `battery = res[0]` and the version is `res[2:]` decoded by
`chr`-join (an empty `res` raises `IndexError` at `res[0]`, after
`_fw_last_read` was already updated). Returns `self._firmware_version`. -/
def firmware_version (now : Int) (devRead : Option (List Nat)) (s : MiFloraPoller) :
    MiFloraPoller × Except PyError (Option (List Nat)) :=
  if firmware_refresh_needed now s then
    match devRead with
    | none =>
      ({ s with fwLastRead := now, battery := 0, firmwareVersion := none }, .ok none)
    | some [] => ({ s with fwLastRead := now }, .error .indexError)
    | some (b0 :: rest) =>
      match pyChrJoin (rest.drop 1) with
      | .error e => ({ s with fwLastRead := now, battery := b0 }, .error e)
      | .ok ver =>
        ({ s with fwLastRead := now, battery := b0, firmwareVersion := some ver },
          .ok (some ver))
  else (s, .ok s.firmwareVersion)

/-- `battery_level()`: call `firmware_version()` (battery is piggybacked on
the firmware read), then return `self.battery`. -/
def battery_level (now : Int) (devRead : Option (List Nat)) (s : MiFloraPoller) :
    MiFloraPoller × Except PyError Nat :=
  match firmware_version now devRead s with
  | (s1, .error e) => (s1, .error e)
  | (s1, .ok _) => (s1, .ok s1.battery)

/-- `_check_data()` as a function of `self._firmware_version` and
`self._cache`, returning the new value of `self._cache` (or the exception
it raises). Mirrors the source: return if the cache is `None`; reject if
`self._cache[7] > 100` (raising `IndexError` when index 7 is out of
range); if `self._firmware_version >= "2.6.6"` (comparing `None` with a
string raises `TypeError`), reject if the bytes from index 10 on sum to
zero; finally reject if the whole payload sums to zero. -/
def check_data (fw : Option (List Nat)) (cache : Option (List Nat)) :
    Except PyError (Option (List Nat)) :=
  match cache with
  | none => .ok none
  | some data =>
    match data.get? 7 with
    | none => .error .indexError
    | some m =>
      if 100 < m then .ok none
      else
        match fw with
        | none => .error .typeError
        | some f =>
          if pyStrGe f ver266 then
            if (data.drop 10).sum = 0 then .ok none
            else if data.sum = 0 then .ok none
            else .ok (some data)
          else if data.sum = 0 then .ok none
          else .ok (some data)

/-- The decoded measurement: temperature in tenths of °C as an exact
rational, light, moisture and conductivity as integers. -/
structure ParsedReading where
  temperature : ℚ
  light : Nat
  moisture : Nat
  conductivity : Nat
deriving DecidableEq, Repr

/-- `_parse_data()`: field layout of the 16-byte measurement payload, with
indices accessed in source order (`data[1]`, `data[0]`, `data[7]`,
`data[4]`, `data[3]`, `data[9]`, `data[8]`); a missing index raises
`IndexError`. -/
def parse_data (data : List Nat) : Except PyError ParsedReading :=
  match data.get? 1, data.get? 0, data.get? 7, data.get? 4, data.get? 3,
      data.get? 9, data.get? 8 with
  | some d1, some d0, some d7, some d4, some d3, some d9, some d8 =>
    .ok { temperature := ((d1 * 256 + d0 : Nat) : ℚ) / 10
          light := d4 * 256 + d3
          moisture := d7
          conductivity := d9 * 256 + d8 }
  | _, _, _, _, _, _, _ => .error .indexError

/-- Python truthiness test `not firmware_version` for an optional string:
true for `None` and for the empty string. -/
def fwFalsy : Option (List Nat) → Bool
  | none => true
  | some l => l.isEmpty

/-- `fill_cache()`: run `firmware_version()` (whose device read outcome is
`fwRead`); if the result is falsy, back off by setting
`_last_read = now - cache_timeout + 300` and return. Otherwise store the
`write_read_ble` outcome `measRead` in `_cache`, run `_check_data()`, and
set `_last_read = now` if the cache survived, else apply the same backoff.
The second component is `some e` when the call raises `e`; the first
component is the state at the raise point. -/
def fill_cache (now : Int) (fwRead measRead : Option (List Nat)) (s : MiFloraPoller) :
    MiFloraPoller × Option PyError :=
  match firmware_version now fwRead s with
  | (s1, .error e) => (s1, some e)
  | (s1, .ok f) =>
    if fwFalsy f then
      ({ s1 with lastRead := some (now - s1.cacheTimeout + 300) }, none)
    else
      match check_data s1.firmwareVersion measRead with
      | .error e => ({ s1 with cache := measRead }, some e)
      | .ok c =>
        if c.isSome then
          ({ s1 with cache := c, lastRead := some now }, none)
        else
          ({ s1 with cache := c, lastRead := some (now - s1.cacheTimeout + 300) }, none)

/-- The cache-refresh condition of `parameter_value`:
`(read_cached is False) or (self._last_read is None) or
 (datetime.now() - self._cache_timeout > self._last_read)`. -/
def refreshNeeded (now ct : Int) (rc : Bool) (lastRead : Option Int) : Bool :=
  !rc ||
    match lastRead with
    | none => true
    | some lr => decide (now - ct > lr)

/-- The `with self.lock:` block of `parameter_value`: fill the cache when
the refresh condition holds, otherwise leave the state unchanged. -/
def locked_refresh (now : Int) (fw1 m1 : Option (List Nat)) (rc : Bool)
    (s : MiFloraPoller) : MiFloraPoller × Option PyError :=
  if refreshNeeded now s.cacheTimeout rc s.lastRead then fill_cache now fw1 m1 s
  else (s, none)

/-- Python truthiness of `self._cache and (len(self._cache) == 16)`. -/
def cacheGood : Option (List Nat) → Bool
  | none => false
  | some d => !d.isEmpty && (d.length == 16)

/-- The four cached measurement parameters. `MI_BATTERY` is dispatched to
`battery_level` before the cache is consulted and is handled separately. -/
inductive Param where
  | temperature
  | light
  | moisture
  | conductivity
deriving DecidableEq, Repr

/-- Dictionary lookup `self._parse_data()[parameter]`, as a rational. -/
def selectParam : Param → ParsedReading → ℚ
  | .temperature, r => r.temperature
  | .light, r => (r.light : ℚ)
  | .moisture, r => (r.moisture : ℚ)
  | .conductivity, r => (r.conductivity : ℚ)

/-- The failure arm of `parameter_value`: one more best-effort
`fill_cache`, then `raise IOError(..., self._mac)` — unless that fill
itself raises, in which case its exception propagates instead. -/
def cache_fail (now : Int) (fw2 m2 : Option (List Nat)) (s : MiFloraPoller) :
    MiFloraPoller × Except PyError ℚ :=
  match fill_cache now fw2 m2 s with
  | (s2, some e) => (s2, .error e)
  | (s2, none) => (s2, .error (.ioError s2.mac))

/-- The part of `parameter_value` after the lock is released: serve the
decoded field if the cache holds a (truthy) payload of length 16,
otherwise take the failure arm. -/
def parameter_value_tail (now : Int) (fw2 m2 : Option (List Nat)) (p : Param)
    (s : MiFloraPoller) : MiFloraPoller × Except PyError ℚ :=
  match s.cache with
  | some data =>
    if !data.isEmpty && (data.length == 16) then
      match parse_data data with
      | .ok r => (s, .ok (selectParam p r))
      | .error e => (s, .error e)
    else cache_fail now fw2 m2 s
  | none => cache_fail now fw2 m2 s

/-- `parameter_value(parameter, read_cached=True)` for a non-battery
parameter: run the locked refresh step, then serve from the cache or fail.
`fw1`/`m1` are the device-read outcomes available to the locked fill,
`fw2`/`m2` those available to the best-effort fill of the failure arm. -/
def parameter_value (now : Int) (fw1 m1 fw2 m2 : Option (List Nat)) (rc : Bool)
    (p : Param) (s : MiFloraPoller) : MiFloraPoller × Except PyError ℚ :=
  match locked_refresh now fw1 m1 rc s with
  | (s1, some e) => (s1, .error e)
  | (s1, none) => parameter_value_tail now fw2 m2 p s1

end MiFloraPoller

/-- Decidable equality for `Except`, used to settle concrete runs of the
embedded operations by `decide`. -/
instance {ε α : Type} [DecidableEq ε] [DecidableEq α] : DecidableEq (Except ε α)
  | .ok a, .ok b =>
    if h : a = b then .isTrue (by rw [h]) else .isFalse (by intro he; cases he; exact h rfl)
  | .ok _, .error _ => .isFalse (by intro h; cases h)
  | .error _, .ok _ => .isFalse (by intro h; cases h)
  | .error e, .error f =>
    if h : e = f then .isTrue (by rw [h]) else .isFalse (by intro he; cases he; exact h rfl)

open MiFloraPoller

/-- The measurement payload of the end-to-end example:
`[0xC8, 0x00, 0x00, 0x00, 0x2C, 0x01, 0x00, 0x2D, 0x00, 0x96, 0, ..., 0]`. -/
def payload16 : List Nat :=
  [200, 0, 0, 0, 44, 1, 0, 45, 0, 150, 0, 0, 0, 0, 0, 0]

/-- A successful firmware-characteristic read: battery byte 99, one skipped
byte, then the code points of "2.6.5". -/
def fwBytes : List Nat := 99 :: 0 :: ver265

/-- A 16-byte all-zero measurement payload. -/
def zeros16 : List Nat := List.replicate 16 0

/-- A poller state holding a freshly validated `payload16` read at time 0,
with a cached firmware version "2.6.5" and `cache_timeout = 600`. -/
def sFresh : MiFloraPoller :=
  { mac := "aa:bb:cc:dd:ee:ff"
    cache := some payload16
    cacheTimeout := 600
    lastRead := some 0
    fwLastRead := 0
    retries := 3
    battery := 99
    firmwareVersion := some ver265 }

/-- `pyChrJoin` succeeds and is the identity on lists of valid code points
(in particular on any list of bytes). -/
theorem pyChrJoin_ok : ∀ {l : List Nat}, (∀ b ∈ l, b < 1114112) → pyChrJoin l = .ok l := by
  intro l
  induction l with
  | nil => intro _; rfl
  | cons n rest ih =>
    intro h
    have h1 : n < 1114112 := h n (List.mem_cons_self n rest)
    have h2 := ih (fun b hb => h b (List.mem_cons_of_mem n hb))
    simp [pyChrJoin, h1, h2]

/-- Against a transport whose every session attempt fails, the inner
`while True` loop of `read_ble` is still running after any number of
iterations, having made one attempt per iteration. -/
theorem read_ble_inner_fail (fuel : Nat) :
    ∀ attempt, read_ble_inner (fun _ => none) attempt fuel = .running (attempt + fuel) := by
  induction fuel with
  | zero => intro a; rfl
  | succ n ih =>
    intro a
    show read_ble_inner (fun _ => none) (a + 1) n = _
    rw [ih (a + 1)]
    congr 1
    omega

/-- Same statement for the inner loop of `write_read_ble`. -/
theorem write_read_ble_inner_fail (fuel : Nat) :
    ∀ attempt, write_read_ble_inner (fun _ => none) attempt fuel = .running (attempt + fuel) := by
  induction fuel with
  | zero => intro a; rfl
  | succ n ih =>
    intro a
    show write_read_ble_inner (fun _ => none) (a + 1) n = _
    rw [ih (a + 1)]
    congr 1
    omega

/-- C1: the claim says a permanently failing transport makes exactly
`r + 1` connection attempts, terminates and returns the `None` sentinel.
The code does not: for every retry bound and every amount of fuel, both
`read_ble` and `write_read_ble` are still inside the inner `while True`
loop, having made one connection attempt per fuel unit — the attempt
counter is never re-checked against the bound, so the loop makes
unboundedly many attempts and the trailing `return None` is unreachable. -/
theorem claim_C1_retry_never_returns :
    ∀ retries fuel : Nat,
      read_ble_run (fun _ => none) retries fuel = .running fuel ∧
      write_read_ble_run (fun _ => none) retries fuel = .running fuel := by
  intro r f
  constructor
  · show (if 0 ≤ r then read_ble_inner (fun _ => none) 0 f else .returned none 0) = _
    rw [if_pos (Nat.zero_le r), read_ble_inner_fail f 0, Nat.zero_add]
  · show (if 0 ≤ r then write_read_ble_inner (fun _ => none) 0 f else .returned none 0) = _
    rw [if_pos (Nat.zero_le r), write_read_ble_inner_fail f 0, Nat.zero_add]

/-- C2 counterexample: the claimed payload passes validation but decodes
to light = 11264 and conductivity = 38400 — not light = 300 and
conductivity = 150 as the claim states. The code reads light as
`data[4] * 256 + data[3]` = 0x2C·256 + 0 and conductivity as
`data[9] * 256 + data[8]` = 0x96·256 + 0. -/
theorem claim_C2_counterexample :
    parse_data payload16 = .ok ⟨20, 11264, 45, 38400⟩ ∧
      (11264 : Nat) ≠ 300 ∧ (38400 : Nat) ≠ 150 :=
  ⟨by norm_num [parse_data, payload16], by decide, by decide⟩

/-- C2 (amended): the payload `payload16` with firmware "2.6.5" passes
validation, and decoding yields temperature = 20.0, moisture = 45,
light = 11264 and conductivity = 38400. -/
theorem claim_C2_amended :
    check_data (some ver265) (some payload16) = .ok (some payload16) ∧
      parse_data payload16 = .ok ⟨20, 11264, 45, 38400⟩ :=
  ⟨by decide, by norm_num [parse_data, payload16]⟩

/-- C4 counterexample: at the exact boundary `now - lastRead = cacheTimeout`
(here `now = 600`, `lastRead = 0`, `cacheTimeout = 600`) the claim requires
a refresh, but the code's strict comparison
`datetime.now() - self._cache_timeout > self._last_read` does not fire: the
call is served from the cache with no new fill, leaving the state
unchanged. -/
theorem claim_C4_counterexample :
    refreshNeeded 600 600 true (some 0) = false ∧
      (600 : Int) - 0 ≥ 600 ∧
      parameter_value 600 none none none none true .moisture sFresh = (sFresh, .ok 45) :=
  ⟨by decide, by decide, by decide⟩

/-- C4 (amended): the locked refresh is performed exactly when
`read_cached` is false, or no prior read exists, or `now - lastRead`
STRICTLY exceeds `cacheTimeout`; with `cacheTimeout = 600` a call 599 s
after a successful fill is served from the cache with no new transport
session (the result does not depend on any device-read outcome and the
state is unchanged), while a call 601 s after performs a fill. -/
theorem claim_C4_amended :
    (∀ (now ct lr : Int) (rc : Bool),
        refreshNeeded now ct rc (some lr) = true ↔ (rc = false ∨ now - lr > ct)) ∧
      (∀ (now ct : Int) (rc : Bool), refreshNeeded now ct rc none = true) ∧
      (∀ fw1 m1 fw2 m2 : Option (List Nat),
        parameter_value 599 fw1 m1 fw2 m2 true .moisture sFresh = (sFresh, .ok 45)) ∧
      (parameter_value 601 none (some payload16) none none true .moisture sFresh).1.lastRead
        = some 601 := by
  refine ⟨?_, ?_, ?_, by decide⟩
  · intro now ct lr rc
    cases rc
    · simp [refreshNeeded]
    · simp [refreshNeeded]
      omega
  · intro now ct rc
    cases rc <;> simp [refreshNeeded]
  · intro fw1 m1 fw2 m2
    rfl

/-- C6 counterexample: the all-zero 16-byte payload has all bytes from
index 10 onward zero and is not rejected by the earlier moisture rule
(byte 7 is 0 ≤ 100), and the firmware string "2.6.5" is lexicographically
below "2.6.6" — yet the validator rejects it (via the later total-sum
rule), contradicting the claimed "rejects exactly when firmware ≥ 2.6.6". -/
theorem claim_C6_counterexample :
    pyStrGe ver265 ver266 = false ∧
      zeros16.get? 7 = some 0 ∧
      (zeros16.drop 10).sum = 0 ∧
      check_data (some ver265) (some zeros16) = .ok none :=
  ⟨by decide, by decide, by decide, by decide⟩

/-- C6 (amended): for a 16-byte payload whose bytes from index 10 onward
sum to zero and whose moisture byte does not trigger the earlier rule, the
validator rejects it exactly when the firmware version is
lexicographically ≥ "2.6.6" OR the entire payload sums to zero. -/
theorem claim_C6_amended (d f : List Nat) (m : Nat) (_hlen : d.length = 16)
    (h7 : d.get? 7 = some m) (hm : m ≤ 100) (hz : (d.drop 10).sum = 0) :
    (check_data (some f) (some d) = .ok none ↔
      (pyStrGe f ver266 = true ∨ d.sum = 0)) := by
  simp only [check_data]
  rw [h7]
  simp only [if_neg (by omega : ¬ 100 < m)]
  by_cases hge : pyStrGe f ver266 = true
  · simp [hge, hz]
  · by_cases hs : d.sum = 0
    · simp [hge, hs]
    · simp [hge, hs]

/-- C6 witness: instantiating the amended claim at `payload16` (whose tail
from index 10 is all zero) under firmware "2.6.6" shows the payload is
rejected there. -/
theorem claim_C6_witness : check_data (some ver266) (some payload16) = .ok none :=
  (claim_C6_amended payload16 ver266 45 (by decide) (by decide) (by decide)
    (by decide)).mpr (Or.inl (by decide))

/-- C7 counterexample: when the retried read of the name characteristic
reports failure (the `None` sentinel), `name()` raises a `TypeError`
(iterating `None`) instead of returning the absent/empty result the claim
describes. -/
theorem claim_C7_counterexample :
    MiFloraPoller.name none = .error .typeError ∧
      (Except.error .typeError : Except PyError (List Nat)) ≠ .ok [] :=
  ⟨rfl, by decide⟩

/-- C7 (amended): on a successful read `name()` returns the bytes decoded
by the direct byte-to-codepoint mapping (the identity on code-point
lists), but on retry exhaustion (absent read result) it raises a
`TypeError` rather than returning an absent/empty result. -/
theorem claim_C7_amended (d : List Nat) (hd : ∀ b ∈ d, b < 1114112) :
    MiFloraPoller.name (some d) = .ok d ∧
      MiFloraPoller.name none = .error .typeError :=
  ⟨by simp [MiFloraPoller.name, pyChrJoin_ok hd], rfl⟩

/-- C7 witness: the amended claim at the concrete byte list [77, 105]. -/
theorem claim_C7_witness :
    MiFloraPoller.name (some [77, 105]) = .ok [77, 105] ∧
      MiFloraPoller.name none = .error .typeError :=
  claim_C7_amended [77, 105] (by decide)

/-- C8: the code contradicts the claim's (and its own docstring's) 24-hour
policy. The first conjunct is the true part: whenever `firmware_version()`
issues a device read (the refresh condition holds), `_fw_last_read` is
updated regardless of the read's outcome. The remaining conjuncts exhibit
the hot loop: after a failed firmware read at time 0 the cached version is
`None`, so one second later — well within 24 hours — the refresh condition
fires again and another device read is issued, instead of returning the
cached absent result. -/
theorem claim_C8_firmware_hot_loop :
    (∀ (now : Int) (r : Option (List Nat)) (s : MiFloraPoller),
        (firmware_version now r s).1.fwLastRead =
          if firmware_refresh_needed now s then now else s.fwLastRead) ∧
      (firmware_version 0 none (init "aa:bb:cc:dd:ee:ff" 600 3 0)).1.firmwareVersion = none ∧
      firmware_refresh_needed 1 (firmware_version 0 none (init "aa:bb:cc:dd:ee:ff" 600 3 0)).1
        = true := by
  refine ⟨?_, by decide, by decide⟩
  intro now r s
  by_cases h : firmware_refresh_needed now s = true
  · simp only [firmware_version, h, if_true]
    split
    · rfl
    · rfl
    · split <;> rfl
  · simp [firmware_version, h]

/-- C5: `fill_cache` scheduling. Given that the embedded
`firmware_version()` step returns `(s1, ok f)`:
if `f` is falsy (firmware unavailable) the fill records
`_last_read = now - cache_timeout + 300` and changes nothing else;
if the firmware is available and validation leaves no payload (absent
measurement result or validation failure) the same backoff timestamp is
recorded; and on a successful validated fill `_last_read = now`. -/
theorem claim_C5_fill_cache_backoff (now : Int) (fwRead measRead : Option (List Nat))
    (s s1 : MiFloraPoller) (f : Option (List Nat))
    (hfw : firmware_version now fwRead s = (s1, .ok f)) :
    (fwFalsy f = true →
      fill_cache now fwRead measRead s =
        ({ s1 with lastRead := some (now - s1.cacheTimeout + 300) }, none)) ∧
    (fwFalsy f = false → check_data s1.firmwareVersion measRead = .ok none →
      fill_cache now fwRead measRead s =
        ({ s1 with cache := none, lastRead := some (now - s1.cacheTimeout + 300) }, none)) ∧
    (fwFalsy f = false → ∀ d, check_data s1.firmwareVersion measRead = .ok (some d) →
      fill_cache now fwRead measRead s =
        ({ s1 with cache := some d, lastRead := some now }, none)) := by
  refine ⟨?_, ?_, ?_⟩
  · intro hf
    simp only [fill_cache, hfw, hf, if_true]
  · intro hf hchk
    simp only [fill_cache, hfw, hf, Bool.false_eq_true, if_false, hchk, Option.isSome_none]
  · intro hf d hchk
    simp only [fill_cache, hfw, hf, Bool.false_eq_true, if_false, hchk, Option.isSome_some,
      if_true]

/-- C5 witness: a concrete successful fill (firmware "2.6.5", measurement
`payload16`) sets `_last_read = now`, and a concrete firmware-unavailable
fill sets `_last_read = now - cache_timeout + 300`. -/
theorem claim_C5_witness :
    fill_cache 1000 (some fwBytes) (some payload16) (init "aa:bb:cc:dd:ee:ff" 600 3 0) =
      ({ init "aa:bb:cc:dd:ee:ff" 600 3 0 with
          fwLastRead := 1000, battery := 99, firmwareVersion := some ver265,
          cache := some payload16, lastRead := some 1000 }, none) ∧
    fill_cache 1000 none (some payload16) (init "aa:bb:cc:dd:ee:ff" 600 3 0) =
      ({ init "aa:bb:cc:dd:ee:ff" 600 3 0 with
          fwLastRead := 1000, battery := 0, firmwareVersion := none,
          lastRead := some (1000 - 600 + 300) }, none) := by
  constructor
  · have h := claim_C5_fill_cache_backoff 1000 (some fwBytes) (some payload16)
      (init "aa:bb:cc:dd:ee:ff" 600 3 0)
      ({ init "aa:bb:cc:dd:ee:ff" 600 3 0 with
          fwLastRead := 1000, battery := 99, firmwareVersion := some ver265 })
      (some ver265) (by decide)
    exact (h.2.2 (by decide) payload16 (by decide)).trans (by decide)
  · have h := claim_C5_fill_cache_backoff 1000 none (some payload16)
      (init "aa:bb:cc:dd:ee:ff" 600 3 0)
      ({ init "aa:bb:cc:dd:ee:ff" 600 3 0 with
          fwLastRead := 1000, battery := 0, firmwareVersion := none })
      none (by decide)
    exact (h.1 (by decide)).trans (by decide)

/-- C10: validation is not total over payload lengths. For every non-absent
measurement payload of length 1 through 7, `_check_data`'s unguarded access
to byte index 7 raises `IndexError`; consequently `fill_cache` propagates
that exception (whenever the firmware step succeeded with a truthy
version), and a `parameter_value` call whose locked step performs such a
fill propagates `IndexError` — an exception different from the documented
`IOError`. -/
theorem claim_C10_short_payload_faults (d : List Nat) (h1 : 1 ≤ d.length)
    (h2 : d.length ≤ 7) :
    (∀ fw : Option (List Nat), check_data fw (some d) = .error .indexError) ∧
    (∀ (now : Int) (fwRead : Option (List Nat)) (s s1 : MiFloraPoller)
        (f : List Nat),
      firmware_version now fwRead s = (s1, .ok (some f)) → f ≠ [] →
      fill_cache now fwRead (some d) s = ({ s1 with cache := some d }, some .indexError)) ∧
    (∀ (now : Int) (fwRead fw2 m2 : Option (List Nat)) (s s1 : MiFloraPoller)
        (f : List Nat) (rc : Bool) (p : Param),
      firmware_version now fwRead s = (s1, .ok (some f)) → f ≠ [] →
      refreshNeeded now s.cacheTimeout rc s.lastRead = true →
      (parameter_value now fwRead (some d) fw2 m2 rc p s).2 = .error .indexError) ∧
    (∀ mac : String, PyError.indexError ≠ .ioError mac) := by
  have hget : d.get? 7 = none := List.get?_eq_none.mpr (by omega)
  have hchk : ∀ fw : Option (List Nat), check_data fw (some d) = .error .indexError := by
    intro fw
    simp only [check_data, hget]
  have hfill : ∀ (now : Int) (fwRead : Option (List Nat)) (s s1 : MiFloraPoller)
      (f : List Nat),
      firmware_version now fwRead s = (s1, .ok (some f)) → f ≠ [] →
      fill_cache now fwRead (some d) s = ({ s1 with cache := some d }, some .indexError) := by
    intro now fwRead s s1 f hfw hne
    have hfv : s1.firmwareVersion = some f := by
      have hthis := hfw
      unfold firmware_version at hthis
      split at hthis
      · split at hthis
        · injection hthis with ha hb
          exact Option.noConfusion (Except.ok.inj hb)
        · injection hthis with ha hb
          exact Except.noConfusion hb
        · split at hthis
          · injection hthis with ha hb
            exact Except.noConfusion hb
          · injection hthis with ha hb
            rw [← ha]
            exact Except.ok.inj hb
      · injection hthis with ha hb
        rw [← ha]
        exact Except.ok.inj hb
    have hfalsy : fwFalsy (some f) = false := by
      cases f with
      | nil => exact absurd rfl hne
      | cons a l => rfl
    simp only [fill_cache, hfw, hfalsy, Bool.false_eq_true, if_false, hfv, hchk]
  refine ⟨hchk, hfill, ?_, by intro mac h; cases h⟩
  intro now fwRead fw2 m2 s s1 f rc p hfw hne hrn
  simp only [parameter_value, locked_refresh, hrn, if_true, hfill now fwRead s s1 f hfw hne]

/-- C10 witness: the one-byte payload `[0]` makes `_check_data` raise
`IndexError`, and a first-ever `parameter_value` call whose measurement
read returns `[0]` propagates `IndexError` to the caller. -/
theorem claim_C10_witness :
    check_data (some ver265) (some [0]) = .error .indexError ∧
    (parameter_value 0 (some fwBytes) (some [0]) none none true .moisture
      (init "aa:bb:cc:dd:ee:ff" 600 3 0)).2 = .error .indexError := by
  have h := claim_C10_short_payload_faults [0] (by decide) (by decide)
  refine ⟨h.1 (some ver265), ?_⟩
  exact h.2.2.1 0 (some fwBytes) none none (init "aa:bb:cc:dd:ee:ff" 600 3 0)
    ({ init "aa:bb:cc:dd:ee:ff" 600 3 0 with
        fwLastRead := 0, battery := 99, firmwareVersion := some ver265 })
    ver265 true .moisture (by decide) (by decide) (by decide)

/-- `firmware_version` never changes `mac`, `_cache`, `_last_read` or
`_cache_timeout`. -/
theorem firmware_version_pres (now : Int) (r : Option (List Nat)) (s : MiFloraPoller) :
    ((firmware_version now r s).1).mac = s.mac ∧
      ((firmware_version now r s).1).cache = s.cache ∧
      ((firmware_version now r s).1).lastRead = s.lastRead ∧
      ((firmware_version now r s).1).cacheTimeout = s.cacheTimeout := by
  unfold firmware_version
  split
  · split
    · exact ⟨rfl, rfl, rfl, rfl⟩
    · exact ⟨rfl, rfl, rfl, rfl⟩
    · split
      · exact ⟨rfl, rfl, rfl, rfl⟩
      · exact ⟨rfl, rfl, rfl, rfl⟩
  · exact ⟨rfl, rfl, rfl, rfl⟩

/-- `fill_cache` never changes `mac` or `_cache_timeout`. -/
theorem fill_cache_pres (now : Int) (fw m : Option (List Nat)) (s : MiFloraPoller) :
    ((fill_cache now fw m s).1).mac = s.mac ∧
      ((fill_cache now fw m s).1).cacheTimeout = s.cacheTimeout := by
  have hp := firmware_version_pres now fw s
  unfold fill_cache
  cases hfw : firmware_version now fw s with
  | mk s1 res =>
    rw [hfw] at hp
    cases res with
    | error e =>
      exact ⟨hp.1, hp.2.2.2⟩
    | ok f =>
      by_cases hf : fwFalsy f = true
      · simp only [hf, if_true]
        exact ⟨hp.1, hp.2.2.2⟩
      · rw [Bool.not_eq_true] at hf
        simp only [hf, Bool.false_eq_true, if_false]
        cases hchk : check_data s1.firmwareVersion m with
        | error e2 =>
          exact ⟨hp.1, hp.2.2.2⟩
        | ok c =>
          by_cases hcs : c.isSome = true
          · simp only [hcs, if_true]
            exact ⟨hp.1, hp.2.2.2⟩
          · rw [Bool.not_eq_true] at hcs
            simp only [hcs, Bool.false_eq_true, if_false]
            exact ⟨hp.1, hp.2.2.2⟩

/-- The locked refresh step never changes `mac` or `_cache_timeout`. -/
theorem locked_refresh_pres (now : Int) (fw1 m1 : Option (List Nat)) (rc : Bool)
    (s : MiFloraPoller) :
    ((locked_refresh now fw1 m1 rc s).1).mac = s.mac ∧
      ((locked_refresh now fw1 m1 rc s).1).cacheTimeout = s.cacheTimeout := by
  unfold locked_refresh
  split
  · exact fill_cache_pres now fw1 m1 s
  · exact ⟨rfl, rfl⟩

/-- `_parse_data` cannot fail on a payload of length 16: all seven accessed
indices are in range. -/
theorem parse_data_len16 (d : List Nat) (h : d.length = 16) :
    ∃ r, parse_data d = Except.ok r := by
  have hg : ∀ i, i < 16 → ∃ v, d.get? i = some v := by
    intro i hi
    cases hv : d.get? i with
    | none => exact absurd (List.get?_eq_none.mp hv) (by omega)
    | some v => exact ⟨v, rfl⟩
  obtain ⟨v1, e1⟩ := hg 1 (by omega)
  obtain ⟨v0, e0⟩ := hg 0 (by omega)
  obtain ⟨v7, e7⟩ := hg 7 (by omega)
  obtain ⟨v4, e4⟩ := hg 4 (by omega)
  obtain ⟨v3, e3⟩ := hg 3 (by omega)
  obtain ⟨v9, e9⟩ := hg 9 (by omega)
  obtain ⟨v8, e8⟩ := hg 8 (by omega)
  exact ⟨⟨((v1 * 256 + v0 : Nat) : ℚ) / 10, v4 * 256 + v3, v7, v9 * 256 + v8⟩,
    by simp only [parse_data, e1, e0, e7, e4, e3, e9, e8]⟩

/-- When the locked refresh step completes without raising,
`parameter_value` continues with the after-lock serve-or-fail step from the
post-refresh state. -/
theorem parameter_value_eq_tail (now : Int) (fw1 m1 fw2 m2 : Option (List Nat))
    (rc : Bool) (p : Param) (s : MiFloraPoller)
    (h : (locked_refresh now fw1 m1 rc s).2 = none) :
    parameter_value now fw1 m1 fw2 m2 rc p s =
      parameter_value_tail now fw2 m2 p ((locked_refresh now fw1 m1 rc s).1) := by
  unfold parameter_value
  cases hL : locked_refresh now fw1 m1 rc s with
  | mk s1 e =>
    rw [hL] at h
    cases e with
    | none => rfl
    | some e2 => exact Option.noConfusion h

/-- When the cache truthiness-and-length test succeeds, the serve step
returns a decoded value and leaves the state unchanged. -/
theorem tail_cacheGood_true (now : Int) (fw2 m2 : Option (List Nat)) (p : Param)
    (s : MiFloraPoller) (h : cacheGood s.cache = true) :
    ∃ r, parameter_value_tail now fw2 m2 p s = (s, Except.ok r) := by
  cases hc : s.cache with
  | none => rw [hc] at h; exact Bool.noConfusion h
  | some data =>
    rw [hc] at h
    simp only [cacheGood] at h
    have hlen : data.length = 16 := by
      have hand := (Bool.and_eq_true _ _).mp h
      exact beq_iff_eq.mp hand.2
    obtain ⟨r, hr⟩ := parse_data_len16 data hlen
    refine ⟨selectParam p r, ?_⟩
    simp only [parameter_value_tail, hc, h, if_true, hr]

/-- When the cache truthiness-and-length test fails, the serve step takes
the failure arm. -/
theorem tail_cacheGood_false (now : Int) (fw2 m2 : Option (List Nat)) (p : Param)
    (s : MiFloraPoller) (h : cacheGood s.cache = false) :
    parameter_value_tail now fw2 m2 p s = cache_fail now fw2 m2 s := by
  cases hc : s.cache with
  | none => simp only [parameter_value_tail, hc]
  | some data =>
    rw [hc] at h
    simp only [cacheGood] at h
    simp only [parameter_value_tail, hc, h, Bool.false_eq_true, if_false]

/-- When the best-effort fill of the failure arm completes without raising,
the failure arm raises the I/O error naming the device address. -/
theorem cache_fail_ioError (now : Int) (fw2 m2 : Option (List Nat)) (s : MiFloraPoller)
    (h : (fill_cache now fw2 m2 s).2 = none) :
    cache_fail now fw2 m2 s =
      ((fill_cache now fw2 m2 s).1, .error (.ioError s.mac)) := by
  have hm := (fill_cache_pres now fw2 m2 s).1
  unfold cache_fail
  cases hf : fill_cache now fw2 m2 s with
  | mk s2 e =>
    rw [hf] at h
    rw [hf] at hm
    cases e with
    | none =>
      show (s2, Except.error (PyError.ioError s2.mac)) = (s2, .error (.ioError s.mac))
      rw [show s2.mac = s.mac from hm]
    | some e2 => exact Option.noConfusion h

/-- C3 counterexample: a `parameter_value` call whose cache fill stores a
one-byte measurement payload propagates `IndexError` — a caller-visible
fault different from the I/O error the claim says is the only one. -/
theorem claim_C3_counterexample :
    (parameter_value 0 (some fwBytes) (some [0]) none none true .moisture
      (init "aa:bb:cc:dd:ee:ff" 600 3 0)).2 = .error .indexError ∧
    PyError.indexError ≠ .ioError "aa:bb:cc:dd:ee:ff" :=
  ⟨by decide, by decide⟩

/-- C3 (amended): provided neither the locked refresh step nor the
best-effort fill of the failure arm raises (which a 1–7-byte measurement
payload can make them do), a non-battery `parameter_value` call raises the
I/O error naming the device address if and only if the post-lock cache
does not hold a (truthy) payload of exactly 16 bytes; in that case it
first runs exactly one more best-effort fill and raises regardless of that
fill's outcome; and under the same proviso the I/O error is the only
caller-visible fault. -/
theorem claim_C3_amended (now : Int) (fw1 m1 fw2 m2 : Option (List Nat)) (rc : Bool)
    (p : Param) (s : MiFloraPoller)
    (hlock : (locked_refresh now fw1 m1 rc s).2 = none)
    (hfill : (fill_cache now fw2 m2 ((locked_refresh now fw1 m1 rc s).1)).2 = none) :
    ((parameter_value now fw1 m1 fw2 m2 rc p s).2 = .error (.ioError s.mac) ↔
      cacheGood ((locked_refresh now fw1 m1 rc s).1).cache = false) ∧
    (cacheGood ((locked_refresh now fw1 m1 rc s).1).cache = false →
      parameter_value now fw1 m1 fw2 m2 rc p s =
        ((fill_cache now fw2 m2 ((locked_refresh now fw1 m1 rc s).1)).1,
          .error (.ioError s.mac))) ∧
    (∀ e, (parameter_value now fw1 m1 fw2 m2 rc p s).2 = .error e →
      e = .ioError s.mac) := by
  have htail := parameter_value_eq_tail now fw1 m1 fw2 m2 rc p s hlock
  by_cases hcg : cacheGood ((locked_refresh now fw1 m1 rc s).1).cache = true
  · obtain ⟨r, hr⟩ := tail_cacheGood_true now fw2 m2 p _ hcg
    rw [htail, hr]
    refine ⟨?_, ?_, ?_⟩
    · simp [hcg]
    · intro hfalse
      rw [hcg] at hfalse
      exact Bool.noConfusion hfalse
    · intro e he
      exact absurd he (by simp)
  · rw [Bool.not_eq_true] at hcg
    have hm := (locked_refresh_pres now fw1 m1 rc s).1
    rw [htail, tail_cacheGood_false now fw2 m2 p _ hcg,
      cache_fail_ioError now fw2 m2 _ hfill, hm]
    refine ⟨?_, ?_, ?_⟩
    · simp [hcg]
    · intro _
      rfl
    · intro e he
      exact (Except.error.inj he).symm

/-- C3 witness: a first-ever call on an unreachable device (both firmware
reads absent) ends in the I/O error naming the device address. -/
theorem claim_C3_witness :
    (parameter_value 0 none none none none true .moisture
      (init "aa:bb:cc:dd:ee:ff" 600 3 0)).2 = .error (.ioError "aa:bb:cc:dd:ee:ff") := by
  have h := claim_C3_amended 0 none none none none true .moisture
    (init "aa:bb:cc:dd:ee:ff" 600 3 0) (by decide) (by decide)
  exact h.1.mpr (by decide)

/-- The validation signature every payload that passes `_check_data` has:
its moisture byte (index 7) exists and is at most 100, and its total sum
is nonzero. -/
def validSig (d : List Nat) : Bool :=
  (match d.get? 7 with
   | some m => decide (m ≤ 100)
   | none => false) && !(d.sum == 0)

/-- A payload accepted by `_check_data` is the scrutinised payload itself
and carries the validation signature. -/
theorem check_data_ok_some (fw m : Option (List Nat)) (d : List Nat)
    (h : check_data fw m = .ok (some d)) : m = some d ∧ validSig d = true := by
  unfold check_data at h
  split at h
  · exact Option.noConfusion (Except.ok.inj h)
  · split at h
    · exact Except.noConfusion h
    · split at h
      · exact Option.noConfusion (Except.ok.inj h)
      · split at h
        · exact Except.noConfusion h
        · split at h
          · split at h
            · exact Option.noConfusion (Except.ok.inj h)
            · split at h
              · exact Option.noConfusion (Except.ok.inj h)
              · have hd := Option.some.inj (Except.ok.inj h)
                subst hd
                refine ⟨rfl, ?_⟩
                simp_all [validSig, Nat.not_lt]
          · split at h
            · exact Option.noConfusion (Except.ok.inj h)
            · have hd := Option.some.inj (Except.ok.inj h)
              subst hd
              refine ⟨rfl, ?_⟩
              simp_all [validSig, Nat.not_lt]

/-- On a measurement result that is absent or at least 8 bytes long,
`_check_data` completes without raising when the firmware version is a
string. -/
theorem check_data_completes (f : List Nat) (m : Option (List Nat))
    (hm : ∀ d, m = some d → 8 ≤ d.length) :
    ∃ c, check_data (some f) m = .ok c := by
  cases m with
  | none => exact ⟨none, rfl⟩
  | some data =>
    have hlen : 8 ≤ data.length := hm data rfl
    have h7 : ∃ v, data.get? 7 = some v := by
      cases hv : data.get? 7 with
      | none => exact absurd (List.get?_eq_none.mp hv) (by omega)
      | some v => exact ⟨v, rfl⟩
    obtain ⟨v, h7⟩ := h7
    simp only [check_data, h7]
    by_cases hmv : 100 < v
    · rw [if_pos hmv]
      exact ⟨none, rfl⟩
    · rw [if_neg hmv]
      by_cases hge : pyStrGe f ver266 = true
      · simp only [hge, if_true]
        by_cases hz : (data.drop 10).sum = 0
        · rw [if_pos hz]
          exact ⟨none, rfl⟩
        · rw [if_neg hz]
          by_cases hs : data.sum = 0
          · rw [if_pos hs]
            exact ⟨none, rfl⟩
          · rw [if_neg hs]
            exact ⟨some data, rfl⟩
      · rw [Bool.not_eq_true] at hge
        simp only [hge, Bool.false_eq_true, if_false]
        by_cases hs : data.sum = 0
        · rw [if_pos hs]
          exact ⟨none, rfl⟩
        · rw [if_neg hs]
          exact ⟨some data, rfl⟩

/-- Transport-result well-formedness for reads whose bytes are decoded by
`chr` (name and firmware characteristics): an absent result, or a
nonempty byte string of valid code points. -/
def readOk : Option (List Nat) → Prop
  | none => True
  | some d => d ≠ [] ∧ ∀ b ∈ d, b < 1114112

/-- Transport-result well-formedness for measurement reads: absent, or at
least 8 bytes (so that `_check_data`'s access to index 7 is in range). -/
def measOk : Option (List Nat) → Prop
  | none => True
  | some d => 8 ≤ d.length

/-- Under a well-formed device read, `firmware_version` completes without
raising and returns exactly the stored `_firmware_version`. -/
theorem firmware_version_ok (now : Int) (r : Option (List Nat)) (s : MiFloraPoller)
    (h : readOk r) :
    ∃ f, (firmware_version now r s).2 = .ok f ∧
      ((firmware_version now r s).1).firmwareVersion = f := by
  unfold firmware_version
  by_cases hc : firmware_refresh_needed now s = true
  · simp only [hc, if_true]
    cases r with
    | none => exact ⟨none, rfl, rfl⟩
    | some d =>
      obtain ⟨hne, hb⟩ := h
      cases d with
      | nil => exact absurd rfl hne
      | cons b0 rest =>
        have hj : pyChrJoin (rest.drop 1) = .ok (rest.drop 1) :=
          pyChrJoin_ok (fun b hb2 =>
            hb b (List.mem_cons_of_mem b0 (List.drop_subset 1 rest hb2)))
        simp only [hj]
        exact ⟨some (rest.drop 1), rfl, rfl⟩
  · rw [if_neg hc]
    exact ⟨s.firmwareVersion, rfl, rfl⟩

/-- Under well-formed device reads, `fill_cache` completes without
raising, records a `_last_read` timestamp, and either leaves `_cache`
untouched (firmware-unavailable early return) or stores only payloads
carrying the validation signature. -/
theorem fill_cache_ok (now : Int) (fw m : Option (List Nat)) (s : MiFloraPoller)
    (hfw : readOk fw) (hm : measOk m) :
    (fill_cache now fw m s).2 = none ∧
      ((fill_cache now fw m s).1).lastRead ≠ none ∧
      (((fill_cache now fw m s).1).cache = s.cache ∨
        ∀ d, ((fill_cache now fw m s).1).cache = some d → validSig d = true) := by
  obtain ⟨f, hok, hfv⟩ := firmware_version_ok now fw s hfw
  have hcpres := (firmware_version_pres now fw s).2.1
  unfold fill_cache
  cases hE : firmware_version now fw s with
  | mk s1 res =>
    rw [hE] at hok hfv hcpres
    cases res with
    | error e => exact Except.noConfusion hok
    | ok f2 =>
      have hf2 : f = f2 := (Except.ok.inj hok).symm
      subst hf2
      by_cases hfalsy : fwFalsy f = true
      · simp only [hfalsy, if_true]
        exact ⟨trivial, by simp, Or.inl hcpres⟩
      · rw [Bool.not_eq_true] at hfalsy
        simp only [hfalsy, Bool.false_eq_true, if_false]
        cases f with
        | none => simp [fwFalsy] at hfalsy
        | some l =>
          rw [hfv]
          obtain ⟨c, hc⟩ := check_data_completes l m
            (fun d hd => by rw [hd] at hm; exact hm)
          simp only [hc]
          cases c with
          | some d =>
            simp only [Option.isSome_some, if_true]
            refine ⟨trivial, by simp, Or.inr ?_⟩
            intro d2 hd2
            have hdd : d = d2 := Option.some.inj hd2
            subst hdd
            exact (check_data_ok_some (some l) m d hc).2
          | none =>
            simp only [Option.isSome_none, Bool.false_eq_true, if_false]
            refine ⟨trivial, by simp, Or.inr ?_⟩
            intro d2 hd2
            exact Option.noConfusion hd2

/-- One public poller operation, together with the environment-supplied
outcome of every device read it may perform: `opName` carries the name
read, `opFirmware`/`opBattery` the call time and the firmware read, and
`opParam` the call time, the firmware and measurement reads available to
the locked fill, those available to the failure-arm fill, the
`read_cached` flag and the requested (non-battery) parameter. -/
inductive Op where
  | opName : Option (List Nat) → Op
  | opFirmware : Int → Option (List Nat) → Op
  | opBattery : Int → Option (List Nat) → Op
  | opParam : Int → Option (List Nat) → Option (List Nat) → Option (List Nat) →
      Option (List Nat) → Bool → Param → Op

/-- The state reached after one public operation (`name()` never touches
the poller state). -/
def applyOp : Op → MiFloraPoller → MiFloraPoller
  | .opName _, s => s
  | .opFirmware now r, s => (firmware_version now r s).1
  | .opBattery now r, s => (battery_level now r s).1
  | .opParam now fw1 m1 fw2 m2 rc p, s => (parameter_value now fw1 m1 fw2 m2 rc p s).1

/-- States reachable from a freshly constructed poller by any sequence of
public operations with arbitrary device-read outcomes. -/
inductive Reachable : MiFloraPoller → Prop where
  | init (mac : String) (ct retries t0 : Int) :
      Reachable (MiFloraPoller.init mac ct retries t0)
  | step (o : Op) {s : MiFloraPoller} : Reachable s → Reachable (applyOp o s)

/-- Well-formedness of the device-read outcomes carried by one operation. -/
def opOk : Op → Prop
  | .opName _ => True
  | .opFirmware _ r => readOk r
  | .opBattery _ r => readOk r
  | .opParam _ fw1 m1 fw2 m2 _ _ => readOk fw1 ∧ measOk m1 ∧ readOk fw2 ∧ measOk m2

/-- Whether the operation runs `fill_cache` at least once: only a
`parameter_value` call fills, either because the locked refresh condition
holds or because the post-lock cache fails the serve test. -/
def opFills : Op → MiFloraPoller → Bool
  | .opName _, _ => false
  | .opFirmware _ _, _ => false
  | .opBattery _ _, _ => false
  | .opParam now fw1 m1 _ _ rc _, s =>
    refreshNeeded now s.cacheTimeout rc s.lastRead ||
      !(cacheGood (((locked_refresh now fw1 m1 rc s)).1).cache)

/-- Reachability instrumented with a ghost flag recording whether some
refresh attempt has completed, restricted to executions whose device reads
are well formed (`opOk`) so that no operation raises mid-fill. -/
inductive ReachableOk : MiFloraPoller → Bool → Prop where
  | init (mac : String) (ct retries t0 : Int) :
      ReachableOk (MiFloraPoller.init mac ct retries t0) false
  | step (o : Op) {s : MiFloraPoller} {g : Bool} (ho : opOk o) :
      ReachableOk s g → ReachableOk (applyOp o s) (g || opFills o s)

/-- `battery_level` reaches the same state as the `firmware_version` call
it performs. -/
theorem battery_level_state (now : Int) (r : Option (List Nat)) (s : MiFloraPoller) :
    (battery_level now r s).1 = (firmware_version now r s).1 := by
  unfold battery_level
  cases hE : firmware_version now r s with
  | mk s1 res =>
    cases res with
    | error e => rfl
    | ok f => rfl

/-- Case analysis of a non-battery `parameter_value` call under
well-formed reads: either no fill runs and the state is unchanged, or at
least one fill runs, a `_last_read` timestamp is present afterwards, and
the cache is unchanged or holds only payloads with the validation
signature. -/
theorem parameter_value_state_cases (now : Int) (fw1 m1 fw2 m2 : Option (List Nat))
    (rc : Bool) (p : Param) (s : MiFloraPoller)
    (h1 : readOk fw1) (h2 : measOk m1) (h3 : readOk fw2) (h4 : measOk m2) :
    (opFills (Op.opParam now fw1 m1 fw2 m2 rc p) s = false ∧
      (parameter_value now fw1 m1 fw2 m2 rc p s).1 = s) ∨
    (opFills (Op.opParam now fw1 m1 fw2 m2 rc p) s = true ∧
      ((parameter_value now fw1 m1 fw2 m2 rc p s).1).lastRead ≠ none ∧
      (((parameter_value now fw1 m1 fw2 m2 rc p s).1).cache = s.cache ∨
        ∀ d, ((parameter_value now fw1 m1 fw2 m2 rc p s).1).cache = some d →
          validSig d = true)) := by
  by_cases hr : refreshNeeded now s.cacheTimeout rc s.lastRead = true
  · right
    have hfill := fill_cache_ok now fw1 m1 s h1 h2
    have hlock : locked_refresh now fw1 m1 rc s = fill_cache now fw1 m1 s := by
      unfold locked_refresh
      rw [if_pos hr]
    have hlock2 : (locked_refresh now fw1 m1 rc s).2 = none := by
      rw [hlock]
      exact hfill.1
    have htail := parameter_value_eq_tail now fw1 m1 fw2 m2 rc p s hlock2
    rw [hlock] at htail
    refine ⟨by simp [opFills, hr], ?_⟩
    by_cases hcg : cacheGood ((fill_cache now fw1 m1 s).1).cache = true
    · obtain ⟨r, hrr⟩ := tail_cacheGood_true now fw2 m2 p _ hcg
      rw [htail, hrr]
      exact ⟨hfill.2.1, hfill.2.2⟩
    · rw [Bool.not_eq_true] at hcg
      have hfill2 := fill_cache_ok now fw2 m2 ((fill_cache now fw1 m1 s).1) h3 h4
      rw [htail, tail_cacheGood_false now fw2 m2 p _ hcg,
        cache_fail_ioError now fw2 m2 _ hfill2.1]
      refine ⟨hfill2.2.1, ?_⟩
      cases hfill2.2.2 with
      | inl hsame =>
        rw [hsame]
        exact hfill.2.2
      | inr hval => exact Or.inr hval
  · rw [Bool.not_eq_true] at hr
    have hlockid : locked_refresh now fw1 m1 rc s = (s, none) := by
      unfold locked_refresh
      simp [hr]
    have hlock2 : (locked_refresh now fw1 m1 rc s).2 = none := by
      rw [hlockid]
    have htail2 : parameter_value now fw1 m1 fw2 m2 rc p s =
        parameter_value_tail now fw2 m2 p s := by
      have h := parameter_value_eq_tail now fw1 m1 fw2 m2 rc p s hlock2
      rw [hlockid] at h
      exact h
    by_cases hcg : cacheGood s.cache = true
    · left
      obtain ⟨r, hrr⟩ := tail_cacheGood_true now fw2 m2 p s hcg
      refine ⟨by simp [opFills, hr, hlockid, hcg], ?_⟩
      rw [htail2, hrr]
    · right
      rw [Bool.not_eq_true] at hcg
      have hfill2 := fill_cache_ok now fw2 m2 s h3 h4
      rw [htail2, tail_cacheGood_false now fw2 m2 p s hcg,
        cache_fail_ioError now fw2 m2 s hfill2.1]
      exact ⟨by simp [opFills, hr, hlockid, hcg], hfill2.2.1, hfill2.2.2⟩

/-- One well-formed public operation preserves the cache-entry invariant:
`_last_read` is set exactly when some refresh attempt has completed
(ghost flag), and the cache holds only validation-passing payloads. -/
theorem cache_inv_step (o : Op) (s : MiFloraPoller) (g : Bool) (ho : opOk o)
    (ih : ((s.lastRead ≠ none) ↔ g = true) ∧
      (∀ d, s.cache = some d → validSig d = true)) :
    (((applyOp o s).lastRead ≠ none) ↔ (g || opFills o s) = true) ∧
      (∀ d, (applyOp o s).cache = some d → validSig d = true) := by
  cases o with
  | opName r => simpa [applyOp, opFills] using ih
  | opFirmware now r =>
    have hp := firmware_version_pres now r s
    constructor
    · rw [show (applyOp (Op.opFirmware now r) s).lastRead = s.lastRead from hp.2.2.1]
      simpa [opFills] using ih.1
    · intro d hd
      rw [show (applyOp (Op.opFirmware now r) s).cache = s.cache from hp.2.1] at hd
      exact ih.2 d hd
  | opBattery now r =>
    have hp := firmware_version_pres now r s
    have hb : applyOp (Op.opBattery now r) s = (firmware_version now r s).1 :=
      battery_level_state now r s
    constructor
    · rw [show (applyOp (Op.opBattery now r) s).lastRead = s.lastRead from hb ▸ hp.2.2.1]
      simpa [opFills] using ih.1
    · intro d hd
      rw [show (applyOp (Op.opBattery now r) s).cache = s.cache from hb ▸ hp.2.1] at hd
      exact ih.2 d hd
  | opParam now fw1 m1 fw2 m2 rc p =>
    obtain ⟨h1, h2, h3, h4⟩ := ho
    cases parameter_value_state_cases now fw1 m1 fw2 m2 rc p s h1 h2 h3 h4 with
    | inl hno =>
      obtain ⟨hof, hst⟩ := hno
      have hst2 : applyOp (Op.opParam now fw1 m1 fw2 m2 rc p) s = s := hst
      rw [hst2, hof]
      constructor
      · simpa using ih.1
      · exact ih.2
    | inr hyes =>
      obtain ⟨hof, hlr, hcache⟩ := hyes
      have hlr2 : (applyOp (Op.opParam now fw1 m1 fw2 m2 rc p) s).lastRead ≠ none := hlr
      rw [hof]
      constructor
      · simp [hlr2]
      · cases hcache with
        | inl hsame =>
          intro d hd
          have hd2 : s.cache = some d := by
            rw [← show (applyOp (Op.opParam now fw1 m1 fw2 m2 rc p) s).cache = s.cache
              from hsame]
            exact hd
          exact ih.2 d hd2
        | inr hval => exact hval

/-- C9 counterexample state: the poller state after one `parameter_value`
call on a fresh poller whose firmware read succeeds with "2.6.5" and
whose measurement read returns the one-byte payload `[0]`. -/
def sBad : MiFloraPoller :=
  applyOp (Op.opParam 0 (some fwBytes) (some [0]) none none true .moisture)
    (init "aa:bb:cc:dd:ee:ff" 600 3 0)

/-- C9 counterexample: `sBad` is reachable by public operations, yet its
cache holds the payload `[0]`, which does not carry the validation
signature (`check_data_ok_some` shows every payload that passes validation
does) — indeed validating it raises `IndexError`. The payload was stored
by `fill_cache` before `_check_data` aborted, so the cached payload is not
the result of a validated read, refuting the claimed invariant. -/
theorem claim_C9_counterexample :
    Reachable sBad ∧ sBad.cache = some [0] ∧ validSig [0] = false ∧
      check_data sBad.firmwareVersion (some [0]) = .error .indexError :=
  ⟨Reachable.step _ (Reachable.init "aa:bb:cc:dd:ee:ff" 600 3 0),
    by decide, by decide, by decide⟩

/-- C9 (amended): restricted to operation sequences whose device reads are
well formed — every measurement read absent or at least 8 bytes, every
name/firmware read absent or a nonempty byte string — the cache-entry
invariant holds in every reachable state: `_last_read` is set if and only
if some refresh attempt has completed, and the cache holds only payloads
carrying the validation signature. (A 1–7-byte measurement read violates
the invariant, per the counterexample.) -/
theorem claim_C9_amended (s : MiFloraPoller) (g : Bool) (h : ReachableOk s g) :
    ((s.lastRead ≠ none) ↔ g = true) ∧
      (∀ d, s.cache = some d → validSig d = true) := by
  induction h with
  | init mac ct retries t0 =>
    constructor
    · simp [MiFloraPoller.init]
    · intro d hd
      simp [MiFloraPoller.init] at hd
  | step o ho hre ih => exact cache_inv_step o _ _ ho ih

/-- C9 witness: the amended invariant instantiated at the freshly
constructed poller (no reads yet, ghost flag false). -/
theorem claim_C9_witness :
    (((init "aa:bb:cc:dd:ee:ff" 600 3 0).lastRead ≠ none) ↔ false = true) ∧
      (∀ d, (init "aa:bb:cc:dd:ee:ff" 600 3 0).cache = some d → validSig d = true) :=
  claim_C9_amended (init "aa:bb:cc:dd:ee:ff" 600 3 0) false
    (ReachableOk.init "aa:bb:cc:dd:ee:ff" 600 3 0)
